import Mathlib

/-!
Verification of the product-fidelity evaluation pipeline
(`src/batch/pipeline.py`, `src/product_fidelity_agent/tools/gecko.py`,
`src/product_fidelity_agent/tools/gemini.py`).

The pipeline is shallowly embedded: the external AI services (description
generation, image generation, rubric evaluation, description refinement)
are modelled as oracles supplied by a `World` record, indexed by the
attempt number on which they are invoked; every oracle call may also
raise an exception or a cancellation, mirroring the `except` clauses of
`process_image`.  The refinement loop of `process_image` is embedded as
a fuel-based recursion (`runLoop`) where the fuel is the number of loop
iterations remaining out of `MAX_RETRIES`.  Scores are modelled as
rationals.
-/

namespace ProductFidelity

/-- A pass/retry/fail decision, the return value of the threshold
decision logic in `gecko.py check_threshold` and the inline comparisons
of `pipeline.py process_image`. -/
inductive Decision where
  | pass
  | retry
  | fail
deriving DecidableEq

/-- Terminal state of one product run, matching the progress events
emitted by `process_image` (`passed`, `failed`, `error`, `cancelled`). -/
inductive Terminal where
  | passed
  | failed
  | errored
  | cancelled
deriving DecidableEq

/-- An exception surfacing from an awaited service call: either an
ordinary raised exception (caught by `except Exception`) or an
`asyncio.CancelledError` (caught by `except asyncio.CancelledError`). -/
inductive StepError where
  | raised (msg : String)
  | cancelled
deriving DecidableEq

/-- Normalized evaluation result returned by `_gecko_eval`:
`{score, passing_verdicts, failing_verdicts}` (the three count fields of
the Python dict are derived and omitted). -/
structure EvalResult where
  score : Rat
  passing_verdicts : List String
  failing_verdicts : List String
deriving DecidableEq

/-- One entry of `evaluation_history` as appended by `process_image`. -/
structure AttemptRecord where
  attempt : Nat
  score : Rat
  passing_verdicts : List String
  failing_verdicts : List String
  image_uri : String
deriving DecidableEq

/-- The per-product result dict returned by `process_image`.  The
`terminal` field records which return site produced the record; it is
determined by the progress event (`passed`/`failed`/`error`/`cancelled`)
emitted at that site. -/
structure RunResult where
  sku_id : String
  passed : Bool
  score : Rat
  attempts : Nat
  description : String
  candidate_uri : String
  reference_uri : String
  evaluation_history : List AttemptRecord
  error : Option String
  terminal : Terminal
deriving DecidableEq

/-- Oracle model of the external services used by one product run.
Each oracle is indexed by the attempt number at which it is called, so
that the nondeterministic environment may answer each call differently;
each call may raise or be cancelled. -/
structure World where
  describe : Except StepError String
  generate : Nat → String → Option String → Except StepError String
  evaluate : Nat → String → String → Except StepError EvalResult
  refine : Nat → String → String → Except StepError String

/-- Instrumentation: one invocation of `_refine(original_description,
failing_verdicts_text)` as issued by `process_image`. -/
structure RefineCall where
  attempt : Nat
  original : String
  failing : String
deriving DecidableEq

/-- Instrumentation: one invocation of `_generate_image`, recording the
attempt number and the description / failing-verdicts arguments. -/
structure GenCall where
  attempt : Nat
  description : String
  failingText : Option String
deriving DecidableEq

/-- Result of `process_image` together with the instrumentation logs of
the refiner and generator calls it issued. -/
structure LoopOut where
  result : RunResult
  refineLog : List RefineCall
  genLog : List GenCall

/-- `"\n".join(f"- {v}" for v in failing_verdicts)` from
`process_image` step 4. -/
def joinFailing (vs : List String) : String :=
  String.intercalate "\n" (vs.map (fun v => "- " ++ v))

/-- The result dict built by the `except asyncio.CancelledError` clause
of `process_image`. -/
def cancelledResult (sku uri : String) (history : List AttemptRecord) : RunResult :=
  { sku_id := sku, passed := false, score := 0, attempts := history.length,
    description := "", candidate_uri := "", reference_uri := uri,
    evaluation_history := history, error := some "cancelled",
    terminal := .cancelled }

/-- The result dict built by the `except Exception` clause of
`process_image`. -/
def erroredResult (sku uri msg : String) (history : List AttemptRecord) : RunResult :=
  { sku_id := sku, passed := false, score := 0, attempts := history.length,
    description := "", candidate_uri := "", reference_uri := uri,
    evaluation_history := history, error := some msg,
    terminal := .errored }

/-- Dispatch of a surfaced `StepError` to the matching `except` clause
of `process_image`. -/
def stepFail (sku uri : String) (history : List AttemptRecord) :
    StepError → RunResult
  | .cancelled => cancelledResult sku uri history
  | .raised msg => erroredResult sku uri msg history

/-- Split a character list at every occurrence of `sep`, keeping empty
pieces (the semantics of Python `str.split(sep)` with a one-character
separator). -/
def splitOnCharAux (sep : Char) : List Char → List Char → List (List Char)
  | [], acc => [acc.reverse]
  | c :: rest, acc =>
    if c = sep then acc.reverse :: splitOnCharAux sep rest []
    else splitOnCharAux sep rest (c :: acc)

/-- Split a string at every occurrence of the character `sep`. -/
def splitOnChar (sep : Char) (s : String) : List String :=
  (splitOnCharAux sep s.data []).map String.mk

/-- `Path(uri).stem`: the final path component without its extension. -/
def pathStem (uri : String) : String :=
  let name := (splitOnChar '/' uri).getLastD ""
  let parts := splitOnChar '.' name
  if parts.length ≤ 1 then name
  else String.intercalate "." parts.dropLast

/-- The `for attempt in range(1, MAX_RETRIES + 1)` loop of
`process_image`, embedded as a recursion on the number of remaining
iterations (`fuel`).  The top-level call supplies `fuel = maxRetries`
and `attempt = 1`; each iteration consumes one unit of fuel and
increments `attempt`.  When the fuel runs out the post-loop code runs:
it reads `evaluation_history[-1]` (an IndexError on an empty history
surfaces as an errored run, as in Python) and returns the failed-result
dict. -/
def runLoop (w : World) (maxRetries : Nat) (threshold : Rat)
    (sku uri original : String) :
    Nat → Nat → String → Option String → List AttemptRecord →
    List RefineCall → List GenCall → LoopOut
  | 0, _attempt, _description, _failingText, history, rlog, glog =>
    match history.getLast? with
    | some rec =>
      { result := { sku_id := sku, passed := false, score := rec.score,
                    attempts := maxRetries, description := original,
                    candidate_uri := rec.image_uri, reference_uri := uri,
                    evaluation_history := history, error := none,
                    terminal := .failed },
        refineLog := rlog, genLog := glog }
    | none =>
      { result := erroredResult sku uri "list index out of range" history,
        refineLog := rlog, genLog := glog }
  | fuel + 1, attempt, description, failingText, history, rlog, glog =>
    let glog' := glog ++ [⟨attempt, description, failingText⟩]
    match w.generate attempt description failingText with
    | .error e =>
      { result := stepFail sku uri history e, refineLog := rlog, genLog := glog' }
    | .ok candidate =>
      match w.evaluate attempt description candidate with
      | .error e =>
        { result := stepFail sku uri history e, refineLog := rlog, genLog := glog' }
      | .ok r =>
        let entry : AttemptRecord :=
          ⟨attempt, r.score, r.passing_verdicts, r.failing_verdicts, candidate⟩
        let history' := history ++ [entry]
        if threshold ≤ r.score then
          { result := { sku_id := sku, passed := true, score := r.score,
                        attempts := attempt, description := original,
                        candidate_uri := candidate, reference_uri := uri,
                        evaluation_history := history', error := none,
                        terminal := .passed },
            refineLog := rlog, genLog := glog' }
        else
          let ftext := joinFailing r.failing_verdicts
          if attempt < maxRetries then
            match w.refine attempt original ftext with
            | .error e =>
              { result := stepFail sku uri history' e,
                refineLog := rlog, genLog := glog' }
            | .ok refined =>
              runLoop w maxRetries threshold sku uri original fuel
                (attempt + 1) refined (some ftext) history'
                (rlog ++ [⟨attempt, original, ftext⟩]) glog'
          else
            runLoop w maxRetries threshold sku uri original fuel
              (attempt + 1) description (some ftext) history' rlog glog'

/-- `process_image`: derive the SKU from the URI, generate the
ground-truth description, then run the refinement loop with the
original description, attempt 1 and an empty history. -/
def process_image (w : World) (maxRetries : Nat) (threshold : Rat)
    (uri : String) : LoopOut :=
  let sku := pathStem uri
  match w.describe with
  | .error e => { result := stepFail sku uri [] e, refineLog := [], genLog := [] }
  | .ok description =>
    runLoop w maxRetries threshold sku uri description maxRetries 1
      description none [] [] []

/-- `run_batch`: map `process_image` over the input URIs (each URI gets
its own oracle world) and sort the results ascending by score
(`sorted(results, key=lambda r: r["score"])`, a stable ascending sort,
modelled by insertion sort which is likewise stable). -/
def run_batch (w : String → World) (maxRetries : Nat) (threshold : Rat)
    (uris : List String) : List RunResult :=
  let results := uris.map (fun u => (process_image (w u) maxRetries threshold u).result)
  List.insertionSort (fun a b => a.score ≤ b.score) results

/-! ### The threshold decision function (`gecko.py check_threshold`) -/

/-- The slice of `ToolContext.state` (plus the `escalate` action flag)
read or written by `check_threshold`: `gecko_score`, `attempt`,
`evaluation_passed`, `actions.escalate` and the failing list of
`rubric_verdicts`.  Keys absent from the state dict are `none`. -/
structure ToolContextState where
  gecko_score : Option Rat
  attempt : Option Nat
  evaluation_passed : Option Bool
  escalate : Bool
  failing : List String
deriving DecidableEq

/-- The dict returned by `check_threshold` (the human-readable
`message`, `threshold` and `max_attempts` echo fields are omitted;
`failing_verdicts` is present only on the retry branch). -/
structure CheckOutcome where
  action : Decision
  score : Rat
  attempt : Nat
  failing_verdicts : Option (List String)
deriving DecidableEq

/-- The branch structure of `check_threshold` as a function of the
values it reads: pass when `score >= PASSING_THRESHOLD`, otherwise fail
when `attempt >= MAX_RETRIES`, otherwise retry. -/
def decide_threshold (score : Rat) (attempt maxRetries : Nat)
    (threshold : Rat) : Decision :=
  if threshold ≤ score then .pass
  else if maxRetries ≤ attempt then .fail
  else .retry

/-- `check_threshold` with its state effects: reads `gecko_score`
(default 0.0) and `attempt` (default 1) from the tool context; on the
pass and fail branches it writes `evaluation_passed` and sets
`actions.escalate`; on the retry branch it reads the failing verdicts
and leaves the state untouched. -/
def check_threshold (ctx : ToolContextState) (threshold : Rat)
    (maxRetries : Nat) : ToolContextState × CheckOutcome :=
  let score := ctx.gecko_score.getD 0
  let attempt := ctx.attempt.getD 1
  if threshold ≤ score then
    ({ ctx with evaluation_passed := some true, escalate := true },
     { action := .pass, score := score, attempt := attempt,
       failing_verdicts := none })
  else if maxRetries ≤ attempt then
    ({ ctx with evaluation_passed := some false, escalate := true },
     { action := .fail, score := score, attempt := attempt,
       failing_verdicts := none })
  else
    (ctx,
     { action := .retry, score := score, attempt := attempt,
       failing_verdicts := some ctx.failing })

/-! ### Score extraction and normalization (`_gecko_eval`) -/

/-- One rubric verdict as returned by the judge service: the raw
verdict flag (compared via `str(raw_verdict).lower() == "true"`) and
the rubric property text. -/
structure RawVerdict where
  verdict : String
  text : String
deriving DecidableEq

/-- ASCII lowercasing of a string, as used by
`str(raw_verdict).lower()`. -/
def lowerString (s : String) : String :=
  String.mk (s.data.map Char.toLower)

/-- The partition of verdicts into passing and failing lists performed
by `_gecko_eval`, preserving service order within each partition. -/
def partitionVerdicts : List RawVerdict → List String × List String
  | [] => ([], [])
  | v :: rest =>
    let pf := partitionVerdicts rest
    if lowerString v.verdict == "true" then (v.text :: pf.1, pf.2)
    else (pf.1, v.text :: pf.2)

/-- The result-extraction tail of `_gecko_eval`: if the service
returned neither a score nor any verdicts, raise the evaluation
infrastructure error; otherwise normalize a missing score to 0.0 and
partition the verdicts. -/
def gecko_extract (score : Option Rat) (verdicts : List RawVerdict) :
    Except String EvalResult :=
  if score.isNone && verdicts.isEmpty then
    .error "Evaluation infrastructure error: no score or verdicts returned."
  else
    let s := score.getD 0
    let pf := partitionVerdicts verdicts
    .ok { score := s, passing_verdicts := pf.1, failing_verdicts := pf.2 }

instance : DecidableEq (Except String EvalResult) := fun a b =>
  match a, b with
  | .error x, .error y =>
    if h : x = y then isTrue (by rw [h]) else isFalse (by simp [h])
  | .ok x, .ok y =>
    if h : x = y then isTrue (by rw [h]) else isFalse (by simp [h])
  | .error _, .ok _ => isFalse (by simp)
  | .ok _, .error _ => isFalse (by simp)

/-- Build an evaluation oracle from raw judge-service responses
(per-attempt optional score and verdict list) via `gecko_extract`; a
raised `RuntimeError` becomes a `StepError.raised`. -/
def evalFromService (svc : Nat → Option Rat × List RawVerdict) :
    Nat → String → String → Except StepError EvalResult :=
  fun attempt _ _ =>
    match gecko_extract (svc attempt).1 (svc attempt).2 with
    | .error msg => .error (.raised msg)
    | .ok r => .ok r

/-! ### Prompt construction in `_generate_image` -/

/-- The base recontextualization instruction
(`_RECONTEXTUALIZATION_PROMPT` in `pipeline.py`). -/
def RECONTEXTUALIZATION_PROMPT : String :=
  "Using the provided product image, generate a new image of the same product " ++
  "in a contextually appropriate setting. The new image should NOT have a white " ++
  "background, and should be contextualized based on the product itself. " ++
  "For example, if the product is a bag, the image should show the bag in a " ++
  "natural ad or professional photo setting. If the product is a dress, the " ++
  "image should show the dress in a natural model photo setting. " ++
  "If there is a person in the original product image, create a variation " ++
  "of the person with the product without copying the exact same pose and " ++
  "environment as in the original image. " ++
  "Keep the product exactly as it is — do not alter its design, colors, " ++
  "logos, or any visual details."

/-- The retry prompt built by `_generate_image` for a retry attempt,
interpolating the failing verdicts and the refined description into the
base instruction. -/
def retryPromptText (currentDescription failingVerdictsText : String) : String :=
  RECONTEXTUALIZATION_PROMPT ++
  "\n\nIMPORTANT: A previous attempt failed fidelity checks. " ++
  "Pay extra attention to the following attributes that were NOT " ++
  "faithfully reproduced:\n" ++ failingVerdictsText ++
  "\n\nUse this refined product description as guidance:\n" ++ currentDescription

/-- Python truthiness of an optional string argument: `None` and the
empty string are falsy. -/
def pyTruthy : Option String → Bool
  | none => false
  | some s => !s.isEmpty

/-- The text part appended to the reference image by `_generate_image`:
the retry-augmented prompt when `attempt > 1 and current_description
and failing_verdicts_text`, otherwise the base instruction alone. -/
def buildGenPrompt (attempt : Nat)
    (currentDescription failingVerdictsText : Option String) : String :=
  if 1 < attempt ∧ pyTruthy currentDescription = true ∧
      pyTruthy failingVerdictsText = true then
    retryPromptText (currentDescription.getD "") (failingVerdictsText.getD "")
  else
    RECONTEXTUALIZATION_PROMPT

/-! ### Concrete oracle worlds for the spec scenarios -/

/-- A well-behaved world whose judge returns the given score sequence
(one score per attempt, each with one failing verdict), with no raised
errors or cancellations. -/
def okWorld (scores : List Rat) : World where
  describe := .ok "a red handbag with a gold logo"
  generate := fun attempt _ _ =>
    .ok ("gs://bucket/generated/sku/attempt_" ++ toString attempt ++ ".png")
  evaluate := fun attempt _ _ =>
    .ok { score := scores.getD (attempt - 1) 0,
          passing_verdicts := [], failing_verdicts := ["logo shape"] }
  refine := fun _ original ftext => .ok (original ++ " | " ++ ftext)

/-- Scenario D world: the judge returns `score=None` with zero verdicts
on every attempt. -/
def nullEvalWorld : World where
  describe := .ok "a red handbag with a gold logo"
  generate := fun attempt _ _ =>
    .ok ("gs://bucket/generated/sku/attempt_" ++ toString attempt ++ ".png")
  evaluate := evalFromService (fun _ => (none, []))
  refine := fun _ original ftext => .ok (original ++ " | " ++ ftext)

/-- Scenario E worlds: three products finishing at scores 0.9 (passes
on attempt 1), 0.5 (fails after three attempts) and 0.2 (fails after
three attempts). -/
def scenarioEWorlds : String → World := fun u =>
  if u = "gs://bucket/a.png" then okWorld [mkRat 9 10]
  else if u = "gs://bucket/b.png" then okWorld [mkRat 1 2, mkRat 1 2, mkRat 1 2]
  else okWorld [mkRat 1 5, mkRat 1 5, mkRat 1 5]

/-- Worlds for a two-product batch where the first product legitimately
scores 0.0 on every attempt and the second product hits an evaluation
infrastructure error. -/
def tieWorlds : String → World := fun u =>
  if u = "gs://bucket/a.png" then okWorld [0, 0, 0]
  else nullEvalWorld

/-! ### Step equations for the refinement loop -/

/-- Abbreviation for the attempt record appended by one loop iteration. -/
def mkEntry (attempt : Nat) (r : EvalResult) (candidate : String) : AttemptRecord :=
  ⟨attempt, r.score, r.passing_verdicts, r.failing_verdicts, candidate⟩

section StepEquations

variable {w : World} {m : Nat} {t : Rat} {sku uri orig : String}
variable {n attempt : Nat} {desc : String} {ft : Option String}
variable {hist : List AttemptRecord} {rlog : List RefineCall} {glog : List GenCall}
variable {candidate refined : String} {r : EvalResult} {e : StepError}

theorem runLoop_zero_some {x : AttemptRecord} (hl : hist.getLast? = some x) :
    runLoop w m t sku uri orig 0 attempt desc ft hist rlog glog =
      { result := { sku_id := sku, passed := false, score := x.score,
                    attempts := m, description := orig,
                    candidate_uri := x.image_uri, reference_uri := uri,
                    evaluation_history := hist, error := none,
                    terminal := .failed },
        refineLog := rlog, genLog := glog } := by
  simp only [runLoop, hl]

theorem runLoop_zero_none (hl : hist.getLast? = none) :
    runLoop w m t sku uri orig 0 attempt desc ft hist rlog glog =
      { result := erroredResult sku uri "list index out of range" hist,
        refineLog := rlog, genLog := glog } := by
  simp only [runLoop, hl]

theorem runLoop_succ_gen_err (hg : w.generate attempt desc ft = .error e) :
    runLoop w m t sku uri orig (n + 1) attempt desc ft hist rlog glog =
      { result := stepFail sku uri hist e, refineLog := rlog,
        genLog := glog ++ [⟨attempt, desc, ft⟩] } := by
  simp only [runLoop, hg]

theorem runLoop_succ_eval_err (hg : w.generate attempt desc ft = .ok candidate)
    (he : w.evaluate attempt desc candidate = .error e) :
    runLoop w m t sku uri orig (n + 1) attempt desc ft hist rlog glog =
      { result := stepFail sku uri hist e, refineLog := rlog,
        genLog := glog ++ [⟨attempt, desc, ft⟩] } := by
  simp only [runLoop, hg, he]

theorem runLoop_succ_pass (hg : w.generate attempt desc ft = .ok candidate)
    (he : w.evaluate attempt desc candidate = .ok r)
    (hs : t ≤ r.score) :
    runLoop w m t sku uri orig (n + 1) attempt desc ft hist rlog glog =
      { result := { sku_id := sku, passed := true, score := r.score,
                    attempts := attempt, description := orig,
                    candidate_uri := candidate, reference_uri := uri,
                    evaluation_history := hist ++ [mkEntry attempt r candidate],
                    error := none, terminal := .passed },
        refineLog := rlog, genLog := glog ++ [⟨attempt, desc, ft⟩] } := by
  simp only [runLoop, hg, he, if_pos hs, mkEntry]

theorem runLoop_succ_refine_err (hg : w.generate attempt desc ft = .ok candidate)
    (he : w.evaluate attempt desc candidate = .ok r)
    (hs : ¬ t ≤ r.score) (ha : attempt < m)
    (hr : w.refine attempt orig (joinFailing r.failing_verdicts) = .error e) :
    runLoop w m t sku uri orig (n + 1) attempt desc ft hist rlog glog =
      { result := stepFail sku uri (hist ++ [mkEntry attempt r candidate]) e,
        refineLog := rlog, genLog := glog ++ [⟨attempt, desc, ft⟩] } := by
  simp only [runLoop, hg, he, if_neg hs, if_pos ha, hr, mkEntry]

theorem runLoop_succ_refine_ok (hg : w.generate attempt desc ft = .ok candidate)
    (he : w.evaluate attempt desc candidate = .ok r)
    (hs : ¬ t ≤ r.score) (ha : attempt < m)
    (hr : w.refine attempt orig (joinFailing r.failing_verdicts) = .ok refined) :
    runLoop w m t sku uri orig (n + 1) attempt desc ft hist rlog glog =
      runLoop w m t sku uri orig n (attempt + 1) refined
        (some (joinFailing r.failing_verdicts))
        (hist ++ [mkEntry attempt r candidate])
        (rlog ++ [⟨attempt, orig, joinFailing r.failing_verdicts⟩])
        (glog ++ [⟨attempt, desc, ft⟩]) := by
  simp only [runLoop, hg, he, if_neg hs, if_pos ha, hr, mkEntry]

theorem runLoop_succ_norefine (hg : w.generate attempt desc ft = .ok candidate)
    (he : w.evaluate attempt desc candidate = .ok r)
    (hs : ¬ t ≤ r.score) (ha : ¬ attempt < m) :
    runLoop w m t sku uri orig (n + 1) attempt desc ft hist rlog glog =
      runLoop w m t sku uri orig n (attempt + 1) desc
        (some (joinFailing r.failing_verdicts))
        (hist ++ [mkEntry attempt r candidate]) rlog
        (glog ++ [⟨attempt, desc, ft⟩]) := by
  simp only [runLoop, hg, he, if_neg hs, if_neg ha, mkEntry]

end StepEquations

/-! ### Invariants of the refinement loop -/

theorem runLoop_history_length_le (w : World) (m : Nat) (t : Rat)
    (sku uri orig : String) :
    ∀ fuel attempt desc ft hist rlog glog,
      ((runLoop w m t sku uri orig fuel attempt desc ft hist rlog
          glog).result.evaluation_history).length ≤ hist.length + fuel := by
  intro fuel
  induction fuel with
  | zero =>
    intro attempt desc ft hist rlog glog
    cases hl : hist.getLast? with
    | some x => rw [runLoop_zero_some hl]; simp
    | none => rw [runLoop_zero_none hl]; simp [erroredResult]
  | succ n ih =>
    intro attempt desc ft hist rlog glog
    cases hg : w.generate attempt desc ft with
    | error e =>
      rw [runLoop_succ_gen_err hg]
      cases e <;> simp [stepFail, cancelledResult, erroredResult]
    | ok candidate =>
      cases he : w.evaluate attempt desc candidate with
      | error e =>
        rw [runLoop_succ_eval_err hg he]
        cases e <;> simp [stepFail, cancelledResult, erroredResult]
      | ok r =>
        by_cases hs : t ≤ r.score
        · rw [runLoop_succ_pass hg he hs]; simp
        · by_cases ha : attempt < m
          · cases hr : w.refine attempt orig (joinFailing r.failing_verdicts) with
            | error e =>
              rw [runLoop_succ_refine_err hg he hs ha hr]
              cases e <;> simp [stepFail, cancelledResult, erroredResult]
            | ok refined =>
              rw [runLoop_succ_refine_ok hg he hs ha hr]
              have := ih (attempt + 1) refined (some (joinFailing r.failing_verdicts))
                (hist ++ [mkEntry attempt r candidate])
                (rlog ++ [⟨attempt, orig, joinFailing r.failing_verdicts⟩])
                (glog ++ [⟨attempt, desc, ft⟩])
              simp at this ⊢
              omega
          · rw [runLoop_succ_norefine hg he hs ha]
            have := ih (attempt + 1) desc (some (joinFailing r.failing_verdicts))
              (hist ++ [mkEntry attempt r candidate]) rlog
              (glog ++ [⟨attempt, desc, ft⟩])
            simp at this ⊢
            omega

theorem runLoop_passed_spec (w : World) (m : Nat) (t : Rat)
    (sku uri orig : String) :
    ∀ fuel attempt desc ft hist rlog glog,
      (∀ x ∈ hist, x.score < t) →
      (runLoop w m t sku uri orig fuel attempt desc ft hist rlog
          glog).result.terminal = .passed →
      ∃ x, (runLoop w m t sku uri orig fuel attempt desc ft hist rlog
          glog).result.evaluation_history.getLast? = some x ∧ t ≤ x.score ∧
        ∀ y ∈ (runLoop w m t sku uri orig fuel attempt desc ft hist rlog
          glog).result.evaluation_history.dropLast, y.score < t := by
  intro fuel
  induction fuel with
  | zero =>
    intro attempt desc ft hist rlog glog hinv hp
    cases hl : hist.getLast? with
    | some x => rw [runLoop_zero_some hl] at hp; simp at hp
    | none => rw [runLoop_zero_none hl] at hp; simp [erroredResult] at hp
  | succ n ih =>
    intro attempt desc ft hist rlog glog hinv hp
    cases hg : w.generate attempt desc ft with
    | error e =>
      rw [runLoop_succ_gen_err hg] at hp
      cases e <;> simp [stepFail, cancelledResult, erroredResult] at hp
    | ok candidate =>
      cases he : w.evaluate attempt desc candidate with
      | error e =>
        rw [runLoop_succ_eval_err hg he] at hp
        cases e <;> simp [stepFail, cancelledResult, erroredResult] at hp
      | ok r =>
        by_cases hs : t ≤ r.score
        · rw [runLoop_succ_pass hg he hs]
          refine ⟨mkEntry attempt r candidate, ?_, ?_, ?_⟩
          · simp
          · simpa [mkEntry] using hs
          · simpa using hinv
        · by_cases ha : attempt < m
          · cases hr : w.refine attempt orig (joinFailing r.failing_verdicts) with
            | error e =>
              rw [runLoop_succ_refine_err hg he hs ha hr] at hp
              cases e <;> simp [stepFail, cancelledResult, erroredResult] at hp
            | ok refined =>
              rw [runLoop_succ_refine_ok hg he hs ha hr] at hp ⊢
              refine ih (attempt + 1) refined (some (joinFailing r.failing_verdicts))
                (hist ++ [mkEntry attempt r candidate])
                (rlog ++ [⟨attempt, orig, joinFailing r.failing_verdicts⟩])
                (glog ++ [⟨attempt, desc, ft⟩]) ?_ hp
              intro x hx
              rcases List.mem_append.mp hx with hx | hx
              · exact hinv x hx
              · simp at hx
                subst hx
                simpa [mkEntry] using lt_of_not_le hs
          · rw [runLoop_succ_norefine hg he hs ha] at hp ⊢
            refine ih (attempt + 1) desc (some (joinFailing r.failing_verdicts))
              (hist ++ [mkEntry attempt r candidate]) rlog
              (glog ++ [⟨attempt, desc, ft⟩]) ?_ hp
            intro x hx
            rcases List.mem_append.mp hx with hx | hx
            · exact hinv x hx
            · simp at hx
              subst hx
              simpa [mkEntry] using lt_of_not_le hs

theorem runLoop_passed_gen_count (w : World) (m : Nat) (t : Rat)
    (sku uri orig : String) :
    ∀ fuel attempt desc ft hist rlog glog,
      (runLoop w m t sku uri orig fuel attempt desc ft hist rlog
          glog).result.terminal = .passed →
      (runLoop w m t sku uri orig fuel attempt desc ft hist rlog
          glog).genLog.length + hist.length =
        (runLoop w m t sku uri orig fuel attempt desc ft hist rlog
          glog).result.evaluation_history.length + glog.length := by
  intro fuel
  induction fuel with
  | zero =>
    intro attempt desc ft hist rlog glog hp
    cases hl : hist.getLast? with
    | some x => rw [runLoop_zero_some hl] at hp; simp at hp
    | none => rw [runLoop_zero_none hl] at hp; simp [erroredResult] at hp
  | succ n ih =>
    intro attempt desc ft hist rlog glog hp
    cases hg : w.generate attempt desc ft with
    | error e =>
      rw [runLoop_succ_gen_err hg] at hp
      cases e <;> simp [stepFail, cancelledResult, erroredResult] at hp
    | ok candidate =>
      cases he : w.evaluate attempt desc candidate with
      | error e =>
        rw [runLoop_succ_eval_err hg he] at hp
        cases e <;> simp [stepFail, cancelledResult, erroredResult] at hp
      | ok r =>
        by_cases hs : t ≤ r.score
        · rw [runLoop_succ_pass hg he hs]
          simp
          omega
        · by_cases ha : attempt < m
          · cases hr : w.refine attempt orig (joinFailing r.failing_verdicts) with
            | error e =>
              rw [runLoop_succ_refine_err hg he hs ha hr] at hp
              cases e <;> simp [stepFail, cancelledResult, erroredResult] at hp
            | ok refined =>
              rw [runLoop_succ_refine_ok hg he hs ha hr] at hp ⊢
              have := ih (attempt + 1) refined (some (joinFailing r.failing_verdicts))
                (hist ++ [mkEntry attempt r candidate])
                (rlog ++ [⟨attempt, orig, joinFailing r.failing_verdicts⟩])
                (glog ++ [⟨attempt, desc, ft⟩]) hp
              simp at this ⊢
              omega
          · rw [runLoop_succ_norefine hg he hs ha] at hp ⊢
            have := ih (attempt + 1) desc (some (joinFailing r.failing_verdicts))
              (hist ++ [mkEntry attempt r candidate]) rlog
              (glog ++ [⟨attempt, desc, ft⟩]) hp
            simp at this ⊢
            omega

theorem runLoop_failed_spec (w : World) (m : Nat) (t : Rat)
    (sku uri orig : String) :
    ∀ fuel attempt desc ft hist rlog glog,
      (∀ x, hist.getLast? = some x → x.score < t) →
      (runLoop w m t sku uri orig fuel attempt desc ft hist rlog
          glog).result.terminal = .failed →
      (runLoop w m t sku uri orig fuel attempt desc ft hist rlog
          glog).result.evaluation_history.length = hist.length + fuel ∧
      ∃ x, (runLoop w m t sku uri orig fuel attempt desc ft hist rlog
          glog).result.evaluation_history.getLast? = some x ∧ x.score < t := by
  intro fuel
  induction fuel with
  | zero =>
    intro attempt desc ft hist rlog glog hinv hp
    cases hl : hist.getLast? with
    | some x =>
      rw [runLoop_zero_some hl] at hp ⊢
      exact ⟨by simp, x, by simpa using hl, hinv x hl⟩
    | none => rw [runLoop_zero_none hl] at hp; simp [erroredResult] at hp
  | succ n ih =>
    intro attempt desc ft hist rlog glog hinv hp
    cases hg : w.generate attempt desc ft with
    | error e =>
      rw [runLoop_succ_gen_err hg] at hp
      cases e <;> simp [stepFail, cancelledResult, erroredResult] at hp
    | ok candidate =>
      cases he : w.evaluate attempt desc candidate with
      | error e =>
        rw [runLoop_succ_eval_err hg he] at hp
        cases e <;> simp [stepFail, cancelledResult, erroredResult] at hp
      | ok r =>
        by_cases hs : t ≤ r.score
        · rw [runLoop_succ_pass hg he hs] at hp
          simp at hp
        · by_cases ha : attempt < m
          · cases hr : w.refine attempt orig (joinFailing r.failing_verdicts) with
            | error e =>
              rw [runLoop_succ_refine_err hg he hs ha hr] at hp
              cases e <;> simp [stepFail, cancelledResult, erroredResult] at hp
            | ok refined =>
              rw [runLoop_succ_refine_ok hg he hs ha hr] at hp ⊢
              have := ih (attempt + 1) refined (some (joinFailing r.failing_verdicts))
                (hist ++ [mkEntry attempt r candidate])
                (rlog ++ [⟨attempt, orig, joinFailing r.failing_verdicts⟩])
                (glog ++ [⟨attempt, desc, ft⟩]) ?_ hp
              · refine ⟨?_, this.2⟩
                rw [this.1]
                simp
                omega
              · intro x hx
                simp at hx
                subst hx
                simpa [mkEntry] using lt_of_not_le hs
          · rw [runLoop_succ_norefine hg he hs ha] at hp ⊢
            have := ih (attempt + 1) desc (some (joinFailing r.failing_verdicts))
              (hist ++ [mkEntry attempt r candidate]) rlog
              (glog ++ [⟨attempt, desc, ft⟩]) ?_ hp
            · refine ⟨?_, this.2⟩
              rw [this.1]
              simp
              omega
            · intro x hx
              simp at hx
              subst hx
              simpa [mkEntry] using lt_of_not_le hs

set_option maxHeartbeats 1000000 in
theorem runLoop_score_nonneg (w : World) (m : Nat) (t : Rat)
    (sku uri orig : String)
    (hw : ∀ a d c r, w.evaluate a d c = .ok r → 0 ≤ r.score) :
    ∀ fuel attempt desc ft hist rlog glog,
      (∀ x, hist.getLast? = some x → 0 ≤ x.score) →
      0 ≤ (runLoop w m t sku uri orig fuel attempt desc ft hist rlog
          glog).result.score := by
  intro fuel
  induction fuel with
  | zero =>
    intro attempt desc ft hist rlog glog hinv
    cases hl : hist.getLast? with
    | some x => rw [runLoop_zero_some hl]; exact hinv x hl
    | none => rw [runLoop_zero_none hl]; simp [erroredResult]
  | succ n ih =>
    intro attempt desc ft hist rlog glog hinv
    cases hg : w.generate attempt desc ft with
    | error e =>
      rw [runLoop_succ_gen_err hg]
      cases e <;> simp [stepFail, cancelledResult, erroredResult]
    | ok candidate =>
      cases he : w.evaluate attempt desc candidate with
      | error e =>
        rw [runLoop_succ_eval_err hg he]
        cases e <;> simp [stepFail, cancelledResult, erroredResult]
      | ok r =>
        by_cases hs : t ≤ r.score
        · rw [runLoop_succ_pass hg he hs]
          exact hw attempt desc candidate r he
        · by_cases ha : attempt < m
          · cases hr : w.refine attempt orig (joinFailing r.failing_verdicts) with
            | error e =>
              rw [runLoop_succ_refine_err hg he hs ha hr]
              cases e <;> simp [stepFail, cancelledResult, erroredResult]
            | ok refined =>
              rw [runLoop_succ_refine_ok hg he hs ha hr]
              refine ih (attempt + 1) refined (some (joinFailing r.failing_verdicts))
                (hist ++ [mkEntry attempt r candidate])
                (rlog ++ [⟨attempt, orig, joinFailing r.failing_verdicts⟩])
                (glog ++ [⟨attempt, desc, ft⟩]) ?_
              intro x hx
              simp at hx
              subst hx
              simpa [mkEntry] using hw attempt desc candidate r he
          · rw [runLoop_succ_norefine hg he hs ha]
            refine ih (attempt + 1) desc (some (joinFailing r.failing_verdicts))
              (hist ++ [mkEntry attempt r candidate]) rlog
              (glog ++ [⟨attempt, desc, ft⟩]) ?_
            intro x hx
            simp at hx
            subst hx
            simpa [mkEntry] using hw attempt desc candidate r he

theorem runLoop_error_fields (w : World) (m : Nat) (t : Rat)
    (sku uri orig : String) :
    ∀ fuel attempt desc ft hist rlog glog,
      ((runLoop w m t sku uri orig fuel attempt desc ft hist rlog
          glog).result.terminal = .errored ∨
       (runLoop w m t sku uri orig fuel attempt desc ft hist rlog
          glog).result.terminal = .cancelled) →
      (runLoop w m t sku uri orig fuel attempt desc ft hist rlog
          glog).result.passed = false ∧
      (runLoop w m t sku uri orig fuel attempt desc ft hist rlog
          glog).result.score = 0 ∧
      (runLoop w m t sku uri orig fuel attempt desc ft hist rlog
          glog).result.description = "" ∧
      (runLoop w m t sku uri orig fuel attempt desc ft hist rlog
          glog).result.candidate_uri = "" ∧
      (runLoop w m t sku uri orig fuel attempt desc ft hist rlog
          glog).result.attempts =
        (runLoop w m t sku uri orig fuel attempt desc ft hist rlog
          glog).result.evaluation_history.length := by
  intro fuel
  induction fuel with
  | zero =>
    intro attempt desc ft hist rlog glog hp
    cases hl : hist.getLast? with
    | some x => rw [runLoop_zero_some hl] at hp; simp at hp
    | none => rw [runLoop_zero_none hl]; simp [erroredResult]
  | succ n ih =>
    intro attempt desc ft hist rlog glog hp
    cases hg : w.generate attempt desc ft with
    | error e =>
      rw [runLoop_succ_gen_err hg]
      cases e <;> simp [stepFail, cancelledResult, erroredResult]
    | ok candidate =>
      cases he : w.evaluate attempt desc candidate with
      | error e =>
        rw [runLoop_succ_eval_err hg he]
        cases e <;> simp [stepFail, cancelledResult, erroredResult]
      | ok r =>
        by_cases hs : t ≤ r.score
        · rw [runLoop_succ_pass hg he hs] at hp
          simp at hp
        · by_cases ha : attempt < m
          · cases hr : w.refine attempt orig (joinFailing r.failing_verdicts) with
            | error e =>
              rw [runLoop_succ_refine_err hg he hs ha hr]
              cases e <;> simp [stepFail, cancelledResult, erroredResult]
            | ok refined =>
              rw [runLoop_succ_refine_ok hg he hs ha hr] at hp ⊢
              exact ih (attempt + 1) refined (some (joinFailing r.failing_verdicts))
                (hist ++ [mkEntry attempt r candidate])
                (rlog ++ [⟨attempt, orig, joinFailing r.failing_verdicts⟩])
                (glog ++ [⟨attempt, desc, ft⟩]) hp
          · rw [runLoop_succ_norefine hg he hs ha] at hp ⊢
            exact ih (attempt + 1) desc (some (joinFailing r.failing_verdicts))
              (hist ++ [mkEntry attempt r candidate]) rlog
              (glog ++ [⟨attempt, desc, ft⟩]) hp

set_option maxHeartbeats 1000000 in
theorem runLoop_refine_log (w : World) (m : Nat) (t : Rat)
    (sku uri orig : String) :
    ∀ fuel attempt desc ft hist rlog glog,
      (∀ c ∈ rlog, c.original = orig ∧ ∃ x ∈ hist, x.attempt = c.attempt ∧
          c.failing = joinFailing x.failing_verdicts) →
      ∀ c ∈ (runLoop w m t sku uri orig fuel attempt desc ft hist rlog
          glog).refineLog,
        c.original = orig ∧
        ∃ x ∈ (runLoop w m t sku uri orig fuel attempt desc ft hist rlog
            glog).result.evaluation_history,
          x.attempt = c.attempt ∧ c.failing = joinFailing x.failing_verdicts := by
  intro fuel
  induction fuel with
  | zero =>
    intro attempt desc ft hist rlog glog hinv c hc
    cases hl : hist.getLast? with
    | some x =>
      rw [runLoop_zero_some hl] at hc ⊢
      exact hinv c hc
    | none =>
      rw [runLoop_zero_none hl] at hc ⊢
      simpa [erroredResult] using hinv c hc
  | succ n ih =>
    intro attempt desc ft hist rlog glog hinv c hc
    cases hg : w.generate attempt desc ft with
    | error e =>
      rw [runLoop_succ_gen_err hg] at hc ⊢
      cases e <;>
        simpa [stepFail, cancelledResult, erroredResult] using hinv c hc
    | ok candidate =>
      cases he : w.evaluate attempt desc candidate with
      | error e =>
        rw [runLoop_succ_eval_err hg he] at hc ⊢
        cases e <;>
          simpa [stepFail, cancelledResult, erroredResult] using hinv c hc
      | ok r =>
        by_cases hs : t ≤ r.score
        · rw [runLoop_succ_pass hg he hs] at hc ⊢
          obtain ⟨h1, x, hx, h2⟩ := hinv c hc
          exact ⟨h1, x, List.mem_append_left _ hx, h2⟩
        · by_cases ha : attempt < m
          · cases hr : w.refine attempt orig (joinFailing r.failing_verdicts) with
            | error e =>
              rw [runLoop_succ_refine_err hg he hs ha hr] at hc ⊢
              obtain ⟨h1, x, hx, h2⟩ := hinv c hc
              cases e <;>
                exact ⟨h1, x, by simp [stepFail, cancelledResult, erroredResult,
                  List.mem_append_left _ hx], h2⟩
            | ok refined =>
              rw [runLoop_succ_refine_ok hg he hs ha hr] at hc ⊢
              refine ih (attempt + 1) refined (some (joinFailing r.failing_verdicts))
                (hist ++ [mkEntry attempt r candidate])
                (rlog ++ [⟨attempt, orig, joinFailing r.failing_verdicts⟩])
                (glog ++ [⟨attempt, desc, ft⟩]) ?_ c hc
              intro d hd
              rcases List.mem_append.mp hd with hd | hd
              · obtain ⟨h1, x, hx, h2⟩ := hinv d hd
                exact ⟨h1, x, List.mem_append_left _ hx, h2⟩
              · simp at hd
                subst hd
                exact ⟨rfl, mkEntry attempt r candidate,
                  List.mem_append_right _ (by simp), rfl, rfl⟩
          · rw [runLoop_succ_norefine hg he hs ha] at hc ⊢
            refine ih (attempt + 1) desc (some (joinFailing r.failing_verdicts))
              (hist ++ [mkEntry attempt r candidate]) rlog
              (glog ++ [⟨attempt, desc, ft⟩]) ?_ c hc
            intro d hd
            obtain ⟨h1, x, hx, h2⟩ := hinv d hd
            exact ⟨h1, x, List.mem_append_left _ hx, h2⟩

/-! ### Lemmas about process_image -/

theorem process_image_describe_ok {w : World} {m : Nat} {t : Rat} {uri d : String}
    (hd : w.describe = .ok d) :
    process_image w m t uri =
      runLoop w m t (pathStem uri) uri d m 1 d none [] [] [] := by
  simp only [process_image, hd]

theorem process_image_describe_err {w : World} {m : Nat} {t : Rat} {uri : String}
    {e : StepError} (hd : w.describe = .error e) :
    process_image w m t uri =
      { result := stepFail (pathStem uri) uri [] e,
        refineLog := [], genLog := [] } := by
  simp only [process_image, hd]

theorem process_image_error_fields (w : World) (m : Nat) (t : Rat) (uri : String)
    (hp : (process_image w m t uri).result.terminal = .errored ∨
          (process_image w m t uri).result.terminal = .cancelled) :
    (process_image w m t uri).result.passed = false ∧
    (process_image w m t uri).result.score = 0 ∧
    (process_image w m t uri).result.description = "" ∧
    (process_image w m t uri).result.candidate_uri = "" ∧
    (process_image w m t uri).result.attempts =
      (process_image w m t uri).result.evaluation_history.length := by
  cases hd : w.describe with
  | error e =>
    rw [process_image_describe_err hd]
    cases e <;> simp [stepFail, cancelledResult, erroredResult]
  | ok d =>
    rw [process_image_describe_ok hd] at hp ⊢
    exact runLoop_error_fields w m t (pathStem uri) uri d m 1 d none [] [] [] hp

theorem process_image_score_nonneg (w : World) (m : Nat) (t : Rat) (uri : String)
    (hw : ∀ a d c r, w.evaluate a d c = .ok r → 0 ≤ r.score) :
    0 ≤ (process_image w m t uri).result.score := by
  cases hd : w.describe with
  | error e =>
    rw [process_image_describe_err hd]
    cases e <;> simp [stepFail, cancelledResult, erroredResult]
  | ok d =>
    rw [process_image_describe_ok hd]
    exact runLoop_score_nonneg w m t (pathStem uri) uri d hw m 1 d none [] [] []
      (by simp)

instance : IsTotal RunResult (fun a b => a.score ≤ b.score) :=
  ⟨fun a b => le_total a.score b.score⟩

instance : IsTrans RunResult (fun a b => a.score ≤ b.score) :=
  ⟨fun _ _ _ h1 h2 => le_trans h1 h2⟩

theorem run_batch_sorted (w : String → World) (m : Nat) (t : Rat)
    (uris : List String) :
    (run_batch w m t uris).Sorted (fun a b => a.score ≤ b.score) := by
  simp only [run_batch]
  exact List.sorted_insertionSort _ _

theorem run_batch_perm (w : String → World) (m : Nat) (t : Rat)
    (uris : List String) :
    (run_batch w m t uris).Perm
      (uris.map (fun u => (process_image (w u) m t u).result)) := by
  simp only [run_batch]
  exact List.perm_insertionSort _ _

theorem run_batch_mem (w : String → World) (m : Nat) (t : Rat)
    (uris : List String) (x : RunResult) (hx : x ∈ run_batch w m t uris) :
    ∃ u ∈ uris, x = (process_image (w u) m t u).result := by
  simp only [run_batch, List.mem_insertionSort, List.mem_map] at hx
  obtain ⟨u, hu, hxu⟩ := hx
  exact ⟨u, hu, hxu.symm⟩

/-! ### Claims -/

/-- C1: the threshold decision maps (score, attempt, max_attempts,
threshold) to exactly one of pass/retry/fail: pass iff the score meets
the threshold (regardless of attempt), fail iff the score is below the
threshold and the attempt count has reached the maximum, and retry
otherwise; and the stateful `check_threshold` returns exactly this
decision on the score and attempt it reads from the tool context. -/
theorem claim_C1 :
    (∀ (score threshold : Rat) (attempt maxRetries : Nat),
      (decide_threshold score attempt maxRetries threshold = .pass ↔
        threshold ≤ score) ∧
      (decide_threshold score attempt maxRetries threshold = .fail ↔
        score < threshold ∧ maxRetries ≤ attempt) ∧
      (decide_threshold score attempt maxRetries threshold = .retry ↔
        score < threshold ∧ attempt < maxRetries)) ∧
    (∀ (ctx : ToolContextState) (threshold : Rat) (maxRetries : Nat),
      (check_threshold ctx threshold maxRetries).2.action =
        decide_threshold (ctx.gecko_score.getD 0) (ctx.attempt.getD 1)
          maxRetries threshold) := by
  constructor
  · intro s t a m
    by_cases hs : t ≤ s
    · simp [decide_threshold, hs, not_lt.mpr hs]
    · by_cases ha : m ≤ a
      · simp [decide_threshold, hs, ha, lt_of_not_le hs, not_lt.mpr ha]
      · simp [decide_threshold, hs, ha, lt_of_not_le hs, lt_of_not_le ha]
  · intro ctx t m
    by_cases hs : t ≤ ctx.gecko_score.getD 0
    · simp [check_threshold, decide_threshold, hs]
    · by_cases ha : m ≤ ctx.attempt.getD 1 <;>
        simp [check_threshold, decide_threshold, hs, ha]

/-- C6: if the evaluation service returns neither a score nor any
verdicts, the scorer raises the evaluation-infrastructure error (and
only then); an extracted result normalizes a missing score to 0.0; and
on a run whose evaluator returns score None with zero verdicts on every
attempt, the run terminates errored, not failed. -/
theorem claim_C6 :
    (∀ (score : Option Rat) (verdicts : List RawVerdict),
      (∃ msg, gecko_extract score verdicts = .error msg) ↔
        score = none ∧ verdicts = []) ∧
    (∀ (score : Option Rat) (verdicts : List RawVerdict) (r : EvalResult),
      gecko_extract score verdicts = .ok r → r.score = score.getD 0) ∧
    ((process_image nullEvalWorld 3 (mkRat 7 10)
        "gs://bucket/p1.png").result.terminal = .errored ∧
     (process_image nullEvalWorld 3 (mkRat 7 10)
        "gs://bucket/p1.png").result.terminal ≠ .failed) := by
  refine ⟨?_, ?_, by decide, by decide⟩
  · intro s v
    constructor
    · rintro ⟨msg, hmsg⟩
      by_cases h : (s.isNone && v.isEmpty) = true
      · rw [Bool.and_eq_true] at h
        exact ⟨Option.isNone_iff_eq_none.mp h.1, List.isEmpty_iff.mp h.2⟩
      · simp [gecko_extract, h] at hmsg
    · rintro ⟨rfl, rfl⟩
      exact ⟨_, rfl⟩
  · intro s v r h
    by_cases hc : (s.isNone && v.isEmpty) = true
    · simp [gecko_extract, hc] at h
    · simp only [gecko_extract, hc, if_false, Bool.false_eq_true] at h
      injection h with h
      rw [← h]

/-- C6 witness: a service response with a null score but one verdict is
normalized to score 0.0 rather than raising. -/
theorem claim_C6_witness :
    (⟨0, ["logo"], []⟩ : EvalResult).score = (none : Option Rat).getD 0 :=
  claim_C6.2.1 none [⟨"True", "logo"⟩] ⟨0, ["logo"], []⟩ (by decide)

/-- C7 counterexample: `check_threshold` is not free of state effects:
on a passing score it writes `evaluation_passed` and sets the escalate
flag, so the tool context after the call differs from the one before. -/
theorem claim_C7_counterexample :
    (check_threshold ⟨some (mkRat 9 10), some 1, none, false, []⟩
        (mkRat 7 10) 3).1 ≠
      ⟨some (mkRat 9 10), some 1, none, false, []⟩ := by decide

/-- C7 (amended): the decision is deterministic and depends only on the
score and attempt read from the context (plus the threshold and
max-attempts arguments); however the call is not side-effect-free: it
may update `evaluation_passed` and the escalate flag, though it never
changes the score, attempt or failing-verdict entries of the state. -/
theorem claim_C7 :
    (∀ (ctx ctx2 : ToolContextState) (threshold : Rat) (maxRetries : Nat),
      ctx.gecko_score = ctx2.gecko_score → ctx.attempt = ctx2.attempt →
      (check_threshold ctx threshold maxRetries).2.action =
        (check_threshold ctx2 threshold maxRetries).2.action) ∧
    (∀ (ctx : ToolContextState) (threshold : Rat) (maxRetries : Nat),
      (check_threshold ctx threshold maxRetries).1.gecko_score =
        ctx.gecko_score ∧
      (check_threshold ctx threshold maxRetries).1.attempt = ctx.attempt ∧
      (check_threshold ctx threshold maxRetries).1.failing = ctx.failing) := by
  constructor
  · intro ctx ctx2 t m h1 h2
    simp only [check_threshold, h1, h2]
    by_cases hs : t ≤ ctx2.gecko_score.getD 0
    · simp [hs]
    · by_cases ha : m ≤ ctx2.attempt.getD 1 <;> simp [hs, ha]
  · intro ctx t m
    by_cases hs : t ≤ ctx.gecko_score.getD 0
    · simp [check_threshold, hs]
    · by_cases ha : m ≤ ctx.attempt.getD 1 <;> simp [check_threshold, hs, ha]

/-- C7 witness: two contexts sharing score 0.9 and attempt 1 but
otherwise different yield the same decision. -/
theorem claim_C7_witness :
    (check_threshold ⟨some (mkRat 9 10), some 1, none, false, []⟩
        (mkRat 7 10) 3).2.action =
      (check_threshold ⟨some (mkRat 9 10), some 1, some true, true, ["x"]⟩
        (mkRat 7 10) 3).2.action :=
  claim_C7.1 ⟨some (mkRat 9 10), some 1, none, false, []⟩
    ⟨some (mkRat 9 10), some 1, some true, true, ["x"]⟩
    (mkRat 7 10) 3 rfl rfl

set_option maxRecDepth 40000 in
/-- C9 counterexample: on attempt 2 with a nonempty description but an
empty failing-verdicts text (possible when the previous attempt scored
below threshold with no failing verdicts), `_generate_image` falls back
to the base instruction and supplies no guidance, contrary to the claim
that every attempt greater than 1 supplies it. -/
theorem claim_C9_counterexample :
    buildGenPrompt 2 (some "a red handbag") (some "") =
      RECONTEXTUALIZATION_PROMPT ∧
    buildGenPrompt 2 (some "a red handbag") (some "") ≠
      retryPromptText "a red handbag" "" := by
  constructor
  · rfl
  · decide

/-- C9 (amended): attempt 1 always uses the base recontextualization
instruction alone; an attempt greater than 1 supplies the refined
description and prior failing verdicts when both are nonempty strings,
and otherwise falls back to the base instruction alone. -/
theorem claim_C9 :
    (∀ d f, buildGenPrompt 1 d f = RECONTEXTUALIZATION_PROMPT) ∧
    (∀ (a : Nat) (ds fs : String), 1 < a → ds ≠ "" → fs ≠ "" →
      buildGenPrompt a (some ds) (some fs) = retryPromptText ds fs) ∧
    (∀ (a : Nat) (d f : Option String),
      ¬ (1 < a ∧ pyTruthy d = true ∧ pyTruthy f = true) →
      buildGenPrompt a d f = RECONTEXTUALIZATION_PROMPT) := by
  refine ⟨?_, ?_, ?_⟩
  · intro d f
    simp [buildGenPrompt]
  · intro a ds fs ha hd hf
    have hd2 : pyTruthy (some ds) = true := by
      cases hsi : ds.isEmpty with
      | false => simp [pyTruthy, hsi]
      | true => exact absurd ((String.isEmpty_iff ds).mp hsi) hd
    have hf2 : pyTruthy (some fs) = true := by
      cases hsi : fs.isEmpty with
      | false => simp [pyTruthy, hsi]
      | true => exact absurd ((String.isEmpty_iff fs).mp hsi) hf
    simp [buildGenPrompt, ha, hd2, hf2]
  · intro a d f h
    simp [buildGenPrompt, h]

/-- C9 witness: attempt 2 with nonempty guidance produces the
retry-augmented prompt. -/
theorem claim_C9_witness :
    buildGenPrompt 2 (some "a red handbag") (some "- logo shape") =
      retryPromptText "a red handbag" "- logo shape" :=
  claim_C9.2.1 2 "a red handbag" "- logo shape" (by decide) (by decide)
    (by decide)

/-- C2: every run that terminates passed stopped at its first passing
attempt: the last history entry meets the threshold, every earlier
entry is below it, and exactly one generation was issued per recorded
attempt (none after the pass); in particular the scenario with
threshold 0.7, max 3 attempts and a first-attempt score of 0.9 passes
with a history of length 1 and a single generation. -/
theorem claim_C2 :
    (∀ (w : World) (m : Nat) (t : Rat) (uri : String),
      (process_image w m t uri).result.terminal = .passed →
      ∃ x, (process_image w m t uri).result.evaluation_history.getLast? =
          some x ∧ t ≤ x.score ∧
        (∀ y ∈ (process_image w m t uri).result.evaluation_history.dropLast,
          y.score < t) ∧
        (process_image w m t uri).genLog.length =
          (process_image w m t uri).result.evaluation_history.length) ∧
    ((process_image (okWorld [mkRat 9 10]) 3 (mkRat 7 10)
        "gs://bucket/p1.png").result.terminal = .passed ∧
     (process_image (okWorld [mkRat 9 10]) 3 (mkRat 7 10)
        "gs://bucket/p1.png").result.evaluation_history.length = 1 ∧
     (process_image (okWorld [mkRat 9 10]) 3 (mkRat 7 10)
        "gs://bucket/p1.png").genLog.length = 1) := by
  refine ⟨?_, by decide, by decide, by decide⟩
  intro w m t uri hp
  cases hd : w.describe with
  | error e =>
    rw [process_image_describe_err hd] at hp
    cases e <;> simp [stepFail, cancelledResult, erroredResult] at hp
  | ok d =>
    rw [process_image_describe_ok hd] at hp ⊢
    obtain ⟨x, h1, h2, h3⟩ :=
      runLoop_passed_spec w m t (pathStem uri) uri d m 1 d none [] [] []
        (by simp) hp
    have h4 :=
      runLoop_passed_gen_count w m t (pathStem uri) uri d m 1 d none [] [] [] hp
    simp only [List.length_nil, Nat.add_zero] at h4
    exact ⟨x, h1, h2, h3, h4⟩

/-- C2 witness: the first conjunct applied to the scenario world whose
single evaluation scores 0.9 against threshold 0.7. -/
theorem claim_C2_witness :
    ∃ x, (process_image (okWorld [mkRat 9 10]) 3 (mkRat 7 10)
        "gs://bucket/p1.png").result.evaluation_history.getLast? = some x ∧
      mkRat 7 10 ≤ x.score ∧
      (∀ y ∈ (process_image (okWorld [mkRat 9 10]) 3 (mkRat 7 10)
          "gs://bucket/p1.png").result.evaluation_history.dropLast,
        y.score < mkRat 7 10) ∧
      (process_image (okWorld [mkRat 9 10]) 3 (mkRat 7 10)
          "gs://bucket/p1.png").genLog.length =
        (process_image (okWorld [mkRat 9 10]) 3 (mkRat 7 10)
          "gs://bucket/p1.png").result.evaluation_history.length :=
  claim_C2.1 (okWorld [mkRat 9 10]) 3 (mkRat 7 10) "gs://bucket/p1.png"
    (by decide)

/-- C3: every run that terminates failed has a history of length
exactly max_attempts and its last score is below the threshold. -/
theorem claim_C3 (w : World) (m : Nat) (t : Rat) (uri : String)
    (hf : (process_image w m t uri).result.terminal = .failed) :
    (process_image w m t uri).result.evaluation_history.length = m ∧
    ∃ x, (process_image w m t uri).result.evaluation_history.getLast? =
        some x ∧ x.score < t := by
  cases hd : w.describe with
  | error e =>
    rw [process_image_describe_err hd] at hf
    cases e <;> simp [stepFail, cancelledResult, erroredResult] at hf
  | ok d =>
    rw [process_image_describe_ok hd] at hf ⊢
    have h := runLoop_failed_spec w m t (pathStem uri) uri d m 1 d none [] [] []
      (by simp) hf
    simpa using h

/-- C3 witness: spec scenario B, scores 0.3, 0.4, 0.5 against threshold
0.7 with three attempts: failed with history length 3. -/
theorem claim_C3_witness :
    (process_image (okWorld [mkRat 3 10, mkRat 2 5, mkRat 1 2]) 3 (mkRat 7 10)
        "gs://bucket/p1.png").result.evaluation_history.length = 3 ∧
    ∃ x, (process_image (okWorld [mkRat 3 10, mkRat 2 5, mkRat 1 2]) 3
        (mkRat 7 10)
        "gs://bucket/p1.png").result.evaluation_history.getLast? = some x ∧
      x.score < mkRat 7 10 :=
  claim_C3 (okWorld [mkRat 3 10, mkRat 2 5, mkRat 1 2]) 3 (mkRat 7 10)
    "gs://bucket/p1.png" (by decide)

/-- C4: whatever terminal state a run reaches, its attempt history
never exceeds the configured max-retries bound. -/
theorem claim_C4 (w : World) (m : Nat) (t : Rat) (uri : String) :
    (process_image w m t uri).result.evaluation_history.length ≤ m := by
  cases hd : w.describe with
  | error e =>
    rw [process_image_describe_err hd]
    cases e <;> simp [stepFail, cancelledResult, erroredResult]
  | ok d =>
    rw [process_image_describe_ok hd]
    have h := runLoop_history_length_le w m t (pathStem uri) uri d m 1 d
      none [] [] []
    simpa using h

/-- C5: every refiner invocation of a run receives as its first
argument the byte-identical ground-truth description produced at the
start of the run, never a previous refinement, and its failing-verdicts
argument is exactly the failing-verdict text of the history entry of
the attempt that just failed. -/
theorem claim_C5 (w : World) (m : Nat) (t : Rat) (uri d : String)
    (hd : w.describe = .ok d) :
    ∀ c ∈ (process_image w m t uri).refineLog,
      c.original = d ∧
      ∃ x ∈ (process_image w m t uri).result.evaluation_history,
        x.attempt = c.attempt ∧ c.failing = joinFailing x.failing_verdicts := by
  rw [process_image_describe_ok hd]
  exact runLoop_refine_log w m t (pathStem uri) uri d m 1 d none [] [] []
    (by simp)

/-- C5 witness: in spec scenario A (scores 0.5, 0.6, 0.8) the refiner
call after attempt 1 receives the original ground-truth description and
the failing-verdict text of attempt 1. -/
theorem claim_C5_witness :
    (⟨1, "a red handbag with a gold logo", "- logo shape"⟩ :
        RefineCall).original = "a red handbag with a gold logo" ∧
    ∃ x ∈ (process_image (okWorld [mkRat 1 2, mkRat 3 5, mkRat 4 5]) 3
        (mkRat 7 10) "gs://bucket/p1.png").result.evaluation_history,
      x.attempt = (⟨1, "a red handbag with a gold logo", "- logo shape"⟩ :
          RefineCall).attempt ∧
      (⟨1, "a red handbag with a gold logo", "- logo shape"⟩ :
          RefineCall).failing = joinFailing x.failing_verdicts :=
  claim_C5 (okWorld [mkRat 1 2, mkRat 3 5, mkRat 4 5]) 3 (mkRat 7 10)
    "gs://bucket/p1.png" "a red handbag with a gold logo" rfl
    ⟨1, "a red handbag with a gold logo", "- logo shape"⟩ (by decide)

/-- C8: run_batch returns its per-product results sorted non-decreasing
by final score, worst-fidelity product first; the returned sequence is
a permutation of the per-product results (nothing dropped or
duplicated by the sort); and in spec scenario E, three products
finishing at 0.9, 0.5 and 0.2 come back in the order 0.2, 0.5, 0.9. -/
theorem claim_C8 :
    (∀ (w : String → World) (m : Nat) (t : Rat) (uris : List String),
      (run_batch w m t uris).Sorted (fun a b => a.score ≤ b.score)) ∧
    (∀ (w : String → World) (m : Nat) (t : Rat) (uris : List String),
      (run_batch w m t uris).Perm
        (uris.map (fun u => (process_image (w u) m t u).result))) ∧
    ((run_batch scenarioEWorlds 3 (mkRat 7 10)
        ["gs://bucket/a.png", "gs://bucket/b.png", "gs://bucket/c.png"]).map
        (fun r => (r.sku_id, r.score)) =
      [("c", mkRat 1 5), ("b", mkRat 1 2), ("a", mkRat 9 10)]) :=
  ⟨run_batch_sorted, run_batch_perm, by decide⟩

/-- C10 counterexample: a two-product batch where the first product
legitimately scores 0.0 on all three attempts (terminal failed) and the
second hits an evaluation infrastructure error (terminal errored): the
stable score sort keeps input order on the 0.0 tie, so the errored run
sorts strictly after a scored run, contradicting the claim that such
runs sort at or before every scored run. -/
theorem claim_C10_counterexample :
    (run_batch tieWorlds 3 (mkRat 7 10)
        ["gs://bucket/a.png", "gs://bucket/b.png"]).map
        (fun r => (r.terminal, r.score)) = [(.failed, 0), (.errored, 0)] := by
  decide

/-- C10 (amended): every run terminating errored or cancelled reports
passed = false, score 0.0, empty description and candidate URI, and an
attempts count equal to the length of the history accumulated so far;
provided the evaluation service only returns nonnegative scores, such a
run's score is less than or equal to the score of every run in its
batch (so it sorts at or before every run with a strictly positive
score; a scored run whose score is also 0.0 may precede it on a tie). -/
theorem claim_C10 :
    (∀ (w : World) (m : Nat) (t : Rat) (uri : String),
      ((process_image w m t uri).result.terminal = .errored ∨
       (process_image w m t uri).result.terminal = .cancelled) →
      (process_image w m t uri).result.passed = false ∧
      (process_image w m t uri).result.score = 0 ∧
      (process_image w m t uri).result.description = "" ∧
      (process_image w m t uri).result.candidate_uri = "" ∧
      (process_image w m t uri).result.attempts =
        (process_image w m t uri).result.evaluation_history.length) ∧
    (∀ (w : String → World) (m : Nat) (t : Rat) (uris : List String),
      (∀ u a d c r, (w u).evaluate a d c = .ok r → 0 ≤ r.score) →
      ∀ x ∈ run_batch w m t uris,
        (x.terminal = .errored ∨ x.terminal = .cancelled) →
        ∀ y ∈ run_batch w m t uris, x.score ≤ y.score) := by
  refine ⟨process_image_error_fields, ?_⟩
  intro w m t uris hw x hx hterm y hy
  obtain ⟨u, _, hxu⟩ := run_batch_mem w m t uris x hx
  obtain ⟨v, _, hyv⟩ := run_batch_mem w m t uris y hy
  have hx0 : x.score = 0 := by
    rw [hxu]
    exact (process_image_error_fields (w u) m t u (hxu ▸ hterm)).2.1
  have hy0 : 0 ≤ y.score := by
    rw [hyv]
    exact process_image_score_nonneg (w v) m t v (hw v)
  rw [hx0]
  exact hy0

/-- C10 witness: the first conjunct applied to the scenario D world. -/
theorem claim_C10_witness :
    (process_image nullEvalWorld 3 (mkRat 7 10)
        "gs://bucket/p1.png").result.passed = false ∧
    (process_image nullEvalWorld 3 (mkRat 7 10)
        "gs://bucket/p1.png").result.score = 0 ∧
    (process_image nullEvalWorld 3 (mkRat 7 10)
        "gs://bucket/p1.png").result.description = "" ∧
    (process_image nullEvalWorld 3 (mkRat 7 10)
        "gs://bucket/p1.png").result.candidate_uri = "" ∧
    (process_image nullEvalWorld 3 (mkRat 7 10)
        "gs://bucket/p1.png").result.attempts =
      (process_image nullEvalWorld 3 (mkRat 7 10)
        "gs://bucket/p1.png").result.evaluation_history.length :=
  claim_C10.1 nullEvalWorld 3 (mkRat 7 10) "gs://bucket/p1.png"
    (Or.inl (by decide))

end ProductFidelity
